import Mathlib

set_option maxRecDepth 16384

/-!
Shallow embedding of the AmneziaWG user/peer lifecycle manager
(`awg_manager.py`, with configuration values from `config.py`).

Modelling conventions:

* IPv4 addresses are represented by their 32-bit numeric value (a `Nat`);
  `ipStr` renders the dotted-quad string exactly as Python's
  `str(ipaddress.IPv4Address(n))` does, and the manager stores and compares
  IPs as such strings (`used_ips`, the `ip` field of a record), as the
  Python code does.
* The configured subnet `VPN_NETWORK` is kept as its network base address
  and its size; `hostsList` enumerates `ipaddress.IPv4Network.hosts()` in
  ascending order (all addresses except the network and broadcast address,
  the behaviour for prefixes up to /30, which covers the supported
  configurations; the default is `10.8.0.0/24`).
* External effects are oracle parameters: the generated keypair `kp` stands
  for `_generate_keypair`, the booleans `addPeerOk` / `removePeerOk` stand
  for success or nonzero-exit failure of the `awg set` subprocess calls in
  `_add_peer` / `_remove_peer`, and `showOut` for the `awg show` call.
* Python exceptions are the `Err` type: `ValueError "... already exists"`
  is `Err.duplicateUser`, `ValueError "... not found"` is
  `Err.userNotFound`, `RuntimeError "No available IPs in the pool"` is
  `Err.poolExhausted` and `RuntimeError "awg command failed: ..."` is
  `Err.peerCommandFailed`.  An operation that raises returns the state as
  it is at the raise point.
* A Python dict is an insertion-ordered association list with distinct
  keys; `self.users[user_id] = user` for a fresh key appends, `del`
  removes the key.  A Python set is a list considered up to membership.
* The user dicts are mutable and aliased: `create_user` stores the record
  object in `self.users`, writes the file, and then adds a
  `client_config` key to that same object.  The record therefore carries
  `client_config : Option String`; the optional field mirrors whether the
  Python dict has the seventh key.  `savedFile` is the snapshot of
  `self.users` serialized by the most recent `_save_users()` call
  (`json.dump` writes every key each dict has at that moment).
-/

/-- Configuration values from `config.py` (environment-derived constants).
`VPN_NETWORK` is kept as base address plus size, `VPN_NETWORK_START` as a
numeric address.  The obfuscation parameters `JC/JMIN/JMAX/S1..S4` and
`SERVER_PORT` are integers, `H1..H4` and `I1..I5` strings (empty when
unset). -/
structure Cfg where
  SERVER_PUBLIC_KEY : String
  SERVER_IP : String
  SERVER_PORT : Int
  VPN_NETWORK_BASE : Nat
  VPN_NETWORK_SIZE : Nat
  VPN_NETWORK_START : Nat
  JC : Int
  JMIN : Int
  JMAX : Int
  S1 : Int
  S2 : Int
  S3 : Int
  S4 : Int
  H1 : String
  H2 : String
  H3 : String
  H4 : String
  I1 : String
  I2 : String
  I3 : String
  I4 : String
  I5 : String
  INTERFACE_NAME : String
deriving Repr, DecidableEq

/-- A user record: the dict built by `create_user`.  `client_config` is
`none` while the dict has only the six base keys and `some c` once the
aliased `user['client_config'] = c` assignment has added the seventh. -/
structure UserRec where
  id : String
  name : String
  private_key : String
  public_key : String
  ip : String
  allowed_ips : String
  client_config : Option String
deriving Repr, DecidableEq

/-- Errors raised by the manager (see the module comment for the mapping
to the Python exceptions). -/
inductive Err where
  | duplicateUser (uid : String)
  | userNotFound (uid : String)
  | poolExhausted
  | peerCommandFailed
deriving Repr, DecidableEq

/-- Manager state: the in-memory `self.users` dict, the in-memory
`self.used_ips` set, the last content written to `users.json`
(`savedFile`), and the live interface's peer table (public key to
allowed-ips), driven by the `awg set` commands. -/
structure MgrState where
  users : List (String × UserRec)
  used_ips : List String
  savedFile : List (String × UserRec)
  peers : List (String × String)
deriving Repr, DecidableEq

/-- Dotted-quad rendering of a 32-bit address value, as
`str(ipaddress.IPv4Address(n))`. -/
def ipStr (n : Nat) : String :=
  toString (n / 16777216 % 256) ++ "." ++ toString (n / 65536 % 256) ++ "."
    ++ toString (n / 256 % 256) ++ "." ++ toString (n % 256)

/-- `ipaddress.IPv4Network.hosts()` in ascending order: every address of
the subnet except the network and the broadcast address. -/
def hostsList (cfg : Cfg) : List Nat :=
  (List.range (cfg.VPN_NETWORK_SIZE - 2)).map (fun i => cfg.VPN_NETWORK_BASE + 1 + i)

/-- The scan loop of `_get_next_ip`: walk the host addresses in order,
skip any below the configured start and any whose string form is in the
used set, return the first remaining one. -/
def findFree (start : Nat) (used : List String) : List Nat → Option String
  | [] => none
  | ip :: rest =>
    if ip < start then findFree start used rest
    else if ipStr ip ∈ used then findFree start used rest
    else some (ipStr ip)

/-- `_get_next_ip`: `none` models the `RuntimeError("No available IPs in
the pool")`. -/
def getNextIp (cfg : Cfg) (used : List String) : Option String :=
  findFree cfg.VPN_NETWORK_START used (hostsList cfg)

/-- Python's `name or user_id`: `None` and the empty string both fall back
to `user_id`. -/
def nameOr (name : Option String) (uid : String) : String :=
  match name with
  | none => uid
  | some n => if n = "" then uid else n

/-- Dict lookup `self.users.get(user_id)` / `user_id in self.users`. -/
def lookupUser : List (String × UserRec) → String → Option UserRec
  | [], _ => none
  | p :: rest, uid => if p.1 = uid then some p.2 else lookupUser rest uid

/-- Python `set.add`. -/
def insertIp (used : List String) (s : String) : List String :=
  if s ∈ used then used else used ++ [s]

/-- Effect of `awg set <iface> peer <pub> allowed-ips <ip>/32` on the
interface's peer table: add the peer, or replace its config if present. -/
def setPeer (peers : List (String × String)) (pub aip : String) : List (String × String) :=
  if pub ∈ peers.map Prod.fst then
    peers.map (fun p => if p.1 = pub then (pub, aip) else p)
  else peers ++ [(pub, aip)]

/-- Effect of `awg set <iface> peer <pub> remove` on the peer table. -/
def erasePeer (peers : List (String × String)) (pub : String) : List (String × String) :=
  peers.filter (fun p => p.1 ≠ pub)

/-- The fixed leading block of `_generate_client_config`: the f-string up
to the `S4` parameter (interface section, DNS, the obfuscation comment
lines, `Jc/Jmin/Jmax` and `S1..S4`). -/
def baseStr (cfg : Cfg) (u : UserRec) : String :=
  "[Interface]\nPrivateKey = " ++ u.private_key ++ "\nAddress = " ++ u.ip
    ++ "/32\nDNS = 1.1.1.1\n\n# 混淆参数 (Obfuscation parameters)\n# obfJunkMinCnt -> Jc, obfJunkMin -> Jmin, obfJunkVar -> Jmax-Jmin\n# obfCtlPadLen -> S1, obfTrPadLen -> S4\nJc = "
    ++ toString cfg.JC ++ "\nJmin = " ++ toString cfg.JMIN ++ "\nJmax = " ++ toString cfg.JMAX
    ++ "\nS1 = " ++ toString cfg.S1 ++ "\nS2 = " ++ toString cfg.S2 ++ "\nS3 = "
    ++ toString cfg.S3 ++ "\nS4 = " ++ toString cfg.S4

/-- The trailing block of `_generate_client_config`: the blank line and
the peer section, with the final newline. -/
def tailStr (cfg : Cfg) : String :=
  "\n\n[Peer]\nPublicKey = " ++ cfg.SERVER_PUBLIC_KEY ++ "\nEndpoint = " ++ cfg.SERVER_IP
    ++ ":" ++ toString cfg.SERVER_PORT ++ "\nAllowedIPs = 0.0.0.0/0\nPersistentKeepalive = 25\n"

/-- `_generate_client_config`: the base block, then each optional field
appended only when its configured value is non-empty (Python string
truthiness), in source order H1,H2,H3,H4,I1,I2,I3,I4,I5, then the peer
block. -/
def generateClientConfig (cfg : Cfg) (u : UserRec) : String :=
  let config := baseStr cfg u
  let config := if cfg.H1 ≠ "" then config ++ "\nH1 = " ++ cfg.H1 else config
  let config := if cfg.H2 ≠ "" then config ++ "\nH2 = " ++ cfg.H2 else config
  let config := if cfg.H3 ≠ "" then config ++ "\nH3 = " ++ cfg.H3 else config
  let config := if cfg.H4 ≠ "" then config ++ "\nH4 = " ++ cfg.H4 else config
  let config := if cfg.I1 ≠ "" then config ++ "\nI1 = " ++ cfg.I1 else config
  let config := if cfg.I2 ≠ "" then config ++ "\nI2 = " ++ cfg.I2 else config
  let config := if cfg.I3 ≠ "" then config ++ "\nI3 = " ++ cfg.I3 else config
  let config := if cfg.I4 ≠ "" then config ++ "\nI4 = " ++ cfg.I4 else config
  let config := if cfg.I5 ≠ "" then config ++ "\nI5 = " ++ cfg.I5 else config
  let config := config ++ tailStr cfg
  config

/-- `create_user`: duplicate check, keypair (oracle `kp`), IP allocation,
`_add_peer` (oracle `addPeerOk`), then store update, set update, save,
and finally the aliased `user['client_config']` assignment, which also
rewrites the record already stored under `uid` (but not the file written
just before). -/
def createUser (cfg : Cfg) (st : MgrState) (uid : String) (name : Option String)
    (kp : String × String) (addPeerOk : Bool) : Except Err UserRec × MgrState :=
  if (lookupUser st.users uid).isSome then
    (.error (.duplicateUser uid), st)
  else
    match getNextIp cfg st.used_ips with
    | none => (.error .poolExhausted, st)
    | some ip =>
      if addPeerOk then
        let user : UserRec :=
          { id := uid, name := nameOr name uid, private_key := kp.1, public_key := kp.2,
            ip := ip, allowed_ips := ip ++ "/32", client_config := none }
        let peers1 := setPeer st.peers kp.2 (ip ++ "/32")
        let users1 := st.users ++ [(uid, user)]
        let used1 := insertIp st.used_ips ip
        let saved1 := users1
        let user2 := { user with client_config := some (generateClientConfig cfg user) }
        let users2 := users1.map (fun p => if p.1 = uid then (p.1, user2) else p)
        (.ok user2, { users := users2, used_ips := used1, savedFile := saved1, peers := peers1 })
      else (.error .peerCommandFailed, st)

/-- `delete_user`: not-found check, `_remove_peer` (oracle
`removePeerOk`), then set discard, dict delete and save. -/
def deleteUser (st : MgrState) (uid : String) (removePeerOk : Bool) :
    Except Err Bool × MgrState :=
  match lookupUser st.users uid with
  | none => (.error (.userNotFound uid), st)
  | some user =>
    if removePeerOk then
      let peers1 := erasePeer st.peers user.public_key
      let used1 := st.used_ips.filter (fun s => s ≠ user.ip)
      let users1 := st.users.filter (fun p => p.1 ≠ uid)
      (.ok true, { users := users1, used_ips := used1, savedFile := users1, peers := peers1 })
    else (.error .peerCommandFailed, st)

/-- `get_user`: look up, `copy()` the dict, attach a freshly rendered
client config to the copy; the stored record and all other state are
untouched. -/
def getUser (cfg : Cfg) (st : MgrState) (uid : String) : Option UserRec × MgrState :=
  match lookupUser st.users uid with
  | none => (none, st)
  | some u =>
    let c := u
    let c2 := { c with client_config := some (generateClientConfig cfg c) }
    (some c2, st)

/-- The projection `list_users` returns per user. -/
structure ListedUser where
  id : String
  name : String
  ip : String
  public_key : String
deriving Repr, DecidableEq

/-- `list_users`: fresh projection dicts, state untouched. -/
def listUsers (st : MgrState) : List ListedUser × MgrState :=
  (st.users.map (fun p => { id := p.1, name := p.2.name, ip := p.2.ip,
                            public_key := p.2.public_key }), st)

/-- Result of `get_server_status`. -/
inductive ServerStatus where
  | running (iface : String) (total_users : Nat) (available_ips : Int) (details : String)
  | failed (iface : String) (error : String)
deriving Repr, DecidableEq

/-- `get_server_status`: on a successful `awg show` (oracle `showOut`),
report the user count and `len(list(self.network.hosts())) -
len(self.used_ips)`; on failure, a degraded record.  State untouched. -/
def getServerStatus (cfg : Cfg) (st : MgrState) (showOut : Option String) :
    ServerStatus × MgrState :=
  match showOut with
  | some out =>
    (.running cfg.INTERFACE_NAME st.users.length
      ((hostsList cfg).length - (st.used_ips.length : Int)) out, st)
  | none => (.failed cfg.INTERFACE_NAME "awg command failed", st)

/-- The startup state of a fresh installation: `_load_users` finds no
file and returns `{}`, `used_ips` is the empty set. -/
def initState : MgrState :=
  { users := [], used_ips := [], savedFile := [], peers := [] }

/-- States reachable from the fresh-install startup state by any sequence
of `create_user` / `delete_user` calls, successful or failing, with any
oracle outcomes. -/
inductive Reach (cfg : Cfg) : MgrState → Prop where
  | init : Reach cfg initState
  | create (st st' : MgrState) (uid : String) (name : Option String) (kp : String × String)
      (ok : Bool) (r : Except Err UserRec) :
      Reach cfg st → createUser cfg st uid name kp ok = (r, st') → Reach cfg st'
  | delete (st st' : MgrState) (uid : String) (ok : Bool) (r : Except Err Bool) :
      Reach cfg st → deleteUser st uid ok = (r, st') → Reach cfg st'

/-- The multiset of stored IPs, in store order. -/
def ipsOf (users : List (String × UserRec)) : List String :=
  users.map (fun p => p.2.ip)

/-- The quiescent-state consistency invariant: distinct ids, no duplicate
stored IPs, a duplicate-free used set, and the used set containing
exactly the stored IPs. -/
def MgrInv (st : MgrState) : Prop :=
  (st.users.map Prod.fst).Nodup ∧ (ipsOf st.users).Nodup ∧ st.used_ips.Nodup ∧
    (∀ s, s ∈ st.used_ips ↔ s ∈ ipsOf st.users)

/-- A string with no embedded newline (a well-formed single-line value
for a configuration field or key). -/
def NoNL (s : String) : Prop := '\n' ∉ s.data

instance (s : String) : Decidable (NoNL s) := by unfold NoNL; infer_instance

/-- Every value interpolated into the rendered client config by the
configuration side is a single-line value. -/
def CfgClean (cfg : Cfg) : Prop :=
  NoNL (toString cfg.JC) ∧ NoNL (toString cfg.JMIN) ∧ NoNL (toString cfg.JMAX) ∧
    NoNL (toString cfg.S1) ∧ NoNL (toString cfg.S2) ∧ NoNL (toString cfg.S3) ∧
    NoNL (toString cfg.S4) ∧ NoNL cfg.H1 ∧ NoNL cfg.H2 ∧ NoNL cfg.H3 ∧ NoNL cfg.H4 ∧
    NoNL cfg.I1 ∧ NoNL cfg.I2 ∧ NoNL cfg.I3 ∧ NoNL cfg.I4 ∧ NoNL cfg.I5 ∧
    NoNL cfg.SERVER_PUBLIC_KEY ∧ NoNL cfg.SERVER_IP ∧ NoNL (toString cfg.SERVER_PORT)

instance (cfg : Cfg) : Decidable (CfgClean cfg) := by unfold CfgClean; infer_instance

/-- The user-record values interpolated into the rendered client config
are single-line values. -/
def UserClean (u : UserRec) : Prop := NoNL u.private_key ∧ NoNL u.ip

instance (u : UserRec) : Decidable (UserClean u) := by unfold UserClean; infer_instance

/-- Split a character sequence at every newline; the result always has
one more entry than the sequence has newlines. -/
def splitLines : List Char → List (List Char)
  | [] => [[]]
  | c :: cs =>
    let rest := splitLines cs
    if c = '\n' then [] :: rest
    else (c :: rest.headD []) :: rest.tail

/-- The lines of a rendered string. -/
def linesOf (s : String) : List (List Char) := splitLines s.data

/-- Concatenation of lines, each preceded by a newline. -/
def nlFlat (ls : List (List Char)) : List Char :=
  (ls.map (fun l => '\n' :: l)).flatten

/-- The nine optional obfuscation fields in the order the source appends
them, each paired with the literal fragment prepended on emission. -/
def optPieces (cfg : Cfg) : List (String × String) :=
  [("\nH1 = ", cfg.H1), ("\nH2 = ", cfg.H2), ("\nH3 = ", cfg.H3), ("\nH4 = ", cfg.H4),
   ("\nI1 = ", cfg.I1), ("\nI2 = ", cfg.I2), ("\nI3 = ", cfg.I3), ("\nI4 = ", cfg.I4),
   ("\nI5 = ", cfg.I5)]

/-- The sequence of `config += f"\nK = {v}" if v` steps. -/
def addOpts (c : String) : List (String × String) → String
  | [] => c
  | kv :: rest => addOpts (if kv.2 ≠ "" then c ++ kv.1 ++ kv.2 else c) rest

/-- The lines contributed by the optional fields: one `K = v` line per
non-empty field, in the fixed order H1..H4 then I1..I5. -/
def optLines (cfg : Cfg) : List (List Char) :=
  (optPieces cfg).filterMap
    (fun kv => if kv.2 = "" then none else some (kv.1.data.drop 1 ++ kv.2.data))

/-- The lines of the fixed leading block, after the `[Interface]` head
line: key/value lines of the interface section, the blank line, the
three comment lines, and the `Jc/Jmin/Jmax/S1..S4` parameters. -/
def hdrRest (cfg : Cfg) (u : UserRec) : List (List Char) :=
  ["PrivateKey = ".data ++ u.private_key.data,
   "Address = ".data ++ u.ip.data ++ "/32".data,
   "DNS = 1.1.1.1".data,
   [],
   "# 混淆参数 (Obfuscation parameters)".data,
   "# obfJunkMinCnt -> Jc, obfJunkMin -> Jmin, obfJunkVar -> Jmax-Jmin".data,
   "# obfCtlPadLen -> S1, obfTrPadLen -> S4".data,
   "Jc = ".data ++ (toString cfg.JC).data,
   "Jmin = ".data ++ (toString cfg.JMIN).data,
   "Jmax = ".data ++ (toString cfg.JMAX).data,
   "S1 = ".data ++ (toString cfg.S1).data,
   "S2 = ".data ++ (toString cfg.S2).data,
   "S3 = ".data ++ (toString cfg.S3).data,
   "S4 = ".data ++ (toString cfg.S4).data]

/-- The lines of the trailing block: the blank separator line, the peer
section, and the empty line produced by the final newline. -/
def peerLines (cfg : Cfg) : List (List Char) :=
  [[],
   "[Peer]".data,
   "PublicKey = ".data ++ cfg.SERVER_PUBLIC_KEY.data,
   "Endpoint = ".data ++ cfg.SERVER_IP.data ++ ":".data ++ (toString cfg.SERVER_PORT).data,
   "AllowedIPs = 0.0.0.0/0".data,
   "PersistentKeepalive = 25".data,
   []]

/-- The full expected line structure of a rendered client config. -/
def clientConfigLines (cfg : Cfg) (u : UserRec) : List (List Char) :=
  "[Interface]".data :: (hdrRest cfg u ++ optLines cfg ++ peerLines cfg)

/-- A small test configuration: subnet of size 8 at base address 0
(hosts `0.0.0.1` .. `0.0.0.6`), start address `0.0.0.2`, all optional
fields unset. -/
def cfgT : Cfg :=
  { SERVER_PUBLIC_KEY := "SPK", SERVER_IP := "1.2.3.4", SERVER_PORT := 51820,
    VPN_NETWORK_BASE := 0, VPN_NETWORK_SIZE := 8, VPN_NETWORK_START := 2,
    JC := 6, JMIN := 50, JMAX := 1000, S1 := 0, S2 := 0, S3 := 0, S4 := 0,
    H1 := "", H2 := "", H3 := "", H4 := "", I1 := "", I2 := "", I3 := "", I4 := "",
    I5 := "", INTERFACE_NAME := "awg0" }

/-- The defaults of `config.py`: subnet `10.8.0.0/24`, start `10.8.0.2`. -/
def cfg24 : Cfg :=
  { SERVER_PUBLIC_KEY := "", SERVER_IP := "0.0.0.0", SERVER_PORT := 51820,
    VPN_NETWORK_BASE := 168296448, VPN_NETWORK_SIZE := 256,
    VPN_NETWORK_START := 168296450,
    JC := 6, JMIN := 50, JMAX := 1000, S1 := 0, S2 := 0, S3 := 0, S4 := 0,
    H1 := "", H2 := "", H3 := "", H4 := "", I1 := "", I2 := "", I3 := "", I4 := "",
    I5 := "", INTERFACE_NAME := "awg0" }

/-- A state of the small test configuration in which every host address
from the start to the end of the subnet is in use. -/
def stExh : MgrState :=
  { users := [], used_ips := ["0.0.0.2", "0.0.0.3", "0.0.0.4", "0.0.0.5", "0.0.0.6"],
    savedFile := [], peers := [] }

/-- The six-field record `create_user` builds and stores (the state of
the `user` dict at `_save_users` time). -/
def mkUser1 (uid : String) (name : Option String) (kp : String × String) (ip : String) :
    UserRec :=
  { id := uid, name := nameOr name uid, private_key := kp.1, public_key := kp.2,
    ip := ip, allowed_ips := ip ++ "/32", client_config := none }

/-- The record after the aliased `user['client_config']` assignment: the
value `create_user` returns and leaves in the in-memory store. -/
def mkUser2 (cfg : Cfg) (uid : String) (name : Option String) (kp : String × String)
    (ip : String) : UserRec :=
  { mkUser1 uid name kp ip with
    client_config := some (generateClientConfig cfg (mkUser1 uid name kp ip)) }

/-- The state after one successful `create_user("a")` from a fresh
install under the small test configuration. -/
def stA : MgrState := (createUser cfgT initState "a" none ("k1", "K1") true).2

/-- The state after five successful creates from a fresh install under
the small test configuration: every allocatable host address
(`0.0.0.2` .. `0.0.0.6`) is in use, while host `0.0.0.1` (below the
configured start) can never be allocated. -/
def st5 : MgrState :=
  (createUser cfgT (createUser cfgT (createUser cfgT (createUser cfgT (createUser cfgT
    initState "u1" none ("k1", "K1") true).2 "u2" none ("k2", "K2") true).2
    "u3" none ("k3", "K3") true).2 "u4" none ("k4", "K4") true).2
    "u5" none ("k5", "K5") true).2

deriving instance DecidableEq for Except

/-- The state after `create_user("a")` then `create_user("b")` from a
fresh install under the small test configuration. -/
def stB : MgrState := (createUser cfgT stA "b" none ("k2", "K2") true).2

/-- A configuration for the rendering scenario: `H1` unset, `I3` set to
`"abcd"`, `H2` also set so that an earlier optional line is present. -/
def cfgI3 : Cfg :=
  { cfgT with I3 := "abcd", H2 := "deadbeef" }

/-- A concrete user record for rendering tests. -/
def uT : UserRec :=
  { id := "a", name := "a", private_key := "PRIV", public_key := "PUB",
    ip := "10.8.0.2", allowed_ips := "10.8.0.2/32", client_config := none }

/-! ## Basic lemmas about the store and the allocator -/

theorem lookupUser_eq_none_iff {l : List (String × UserRec)} {uid : String} :
    lookupUser l uid = none ↔ ∀ p ∈ l, p.1 ≠ uid := by
  induction l with
  | nil => simp [lookupUser]
  | cons p rest ih =>
    by_cases h : p.1 = uid
    · simp [lookupUser, h]
    · simp [lookupUser, h, ih]

theorem lookupUser_mem {l : List (String × UserRec)} {uid : String} {u : UserRec}
    (h : lookupUser l uid = some u) : (uid, u) ∈ l := by
  induction l with
  | nil => simp [lookupUser] at h
  | cons p rest ih =>
    obtain ⟨k, v⟩ := p
    by_cases hp : k = uid
    · subst hp
      simp [lookupUser] at h
      subst h
      exact List.mem_cons_self _ _
    · simp [lookupUser, hp] at h
      exact List.mem_cons_of_mem _ (ih h)

theorem findFree_not_mem : ∀ (l : List Nat) {start : Nat} {used : List String} {s : String},
    findFree start used l = some s → s ∉ used := by
  intro l
  induction l with
  | nil => intro start used s h; simp [findFree] at h
  | cons ip rest ih =>
    intro start used s h
    unfold findFree at h
    split at h
    · exact ih h
    · split at h
      · exact ih h
      · injection h with h'
        subst h'
        assumption

theorem getNextIp_not_mem {cfg : Cfg} {used : List String} {s : String}
    (h : getNextIp cfg used = some s) : s ∉ used :=
  findFree_not_mem (hostsList cfg) h

theorem map_keep_of_ne {l : List (String × UserRec)} {uid : String}
    (h : ∀ p ∈ l, p.1 ≠ uid) (u2 : UserRec) :
    l.map (fun p => if p.1 = uid then (p.1, u2) else p) = l := by
  induction l with
  | nil => rfl
  | cons p rest ih =>
    have h1 : p.1 ≠ uid := h p (List.mem_cons_self p rest)
    simp only [List.map_cons, if_neg h1]
    rw [ih (fun q hq => h q (List.mem_cons_of_mem _ hq))]

theorem createUser_ok {cfg : Cfg} {st : MgrState} {uid : String} {name : Option String}
    {kp : String × String} {ip : String}
    (h : lookupUser st.users uid = none) (hip : getNextIp cfg st.used_ips = some ip) :
    createUser cfg st uid name kp true =
      (.ok (mkUser2 cfg uid name kp ip),
       { users := st.users ++ [(uid, mkUser2 cfg uid name kp ip)],
         used_ips := st.used_ips ++ [ip],
         savedFile := st.users ++ [(uid, mkUser1 uid name kp ip)],
         peers := setPeer st.peers kp.2 (ip ++ "/32") }) := by
  have hkeys : ∀ p ∈ st.users, p.1 ≠ uid := lookupUser_eq_none_iff.mp h
  have hnm : ip ∉ st.used_ips := getNextIp_not_mem hip
  simp only [createUser, h, Option.isSome_none, Bool.false_eq_true, if_false, hip,
    insertIp, if_neg hnm, List.map_append, List.map_cons, List.map_nil, if_pos rfl, if_true]
  rw [map_keep_of_ne hkeys]
  rfl

/-! ## Claim theorems: error paths and frame properties -/

/-- C1: in any state where `uid` is not stored and an IP is allocatable,
a `create_user` whose peer-registration step fails raises
`PeerCommandFailed`; afterwards the tentatively allocated IP is not in
the used set and is the one the next allocation returns, and no record
for `uid` is stored. -/
theorem create_user_rollback_on_peer_failure
    (cfg : Cfg) (st : MgrState) (uid : String) (name : Option String)
    (kp : String × String) (ip : String)
    (h : lookupUser st.users uid = none) (hip : getNextIp cfg st.used_ips = some ip) :
    createUser cfg st uid name kp false = (.error .peerCommandFailed, st) ∧
    ip ∉ (createUser cfg st uid name kp false).2.used_ips ∧
    getNextIp cfg (createUser cfg st uid name kp false).2.used_ips = some ip ∧
    lookupUser (createUser cfg st uid name kp false).2.users uid = none := by
  have he : createUser cfg st uid name kp false = (.error .peerCommandFailed, st) := by
    simp [createUser, h, hip]
  refine ⟨he, ?_, ?_, ?_⟩ <;> rw [he]
  · exact getNextIp_not_mem hip
  · exact hip
  · exact h

theorem create_user_rollback_on_peer_failure_witness :
    createUser cfgT initState "a" none ("priv", "pub") false =
      (.error .peerCommandFailed, initState) ∧
    "0.0.0.2" ∉ (createUser cfgT initState "a" none ("priv", "pub") false).2.used_ips ∧
    getNextIp cfgT (createUser cfgT initState "a" none ("priv", "pub") false).2.used_ips =
      some "0.0.0.2" ∧
    lookupUser (createUser cfgT initState "a" none ("priv", "pub") false).2.users "a" = none :=
  create_user_rollback_on_peer_failure cfgT initState "a" none ("priv", "pub") "0.0.0.2"
    (by decide) (by decide)

/-- C4: when `uid` is already stored (and stored exactly once),
`create_user` raises `DuplicateUser` and changes nothing: the store still
holds exactly one record for `uid`, that record (with its original ip)
is unchanged, and the used set is unchanged. -/
theorem create_user_duplicate_no_action
    (cfg : Cfg) (st : MgrState) (uid : String) (name : Option String) (kp : String × String)
    (ok : Bool) (u : UserRec) (h : lookupUser st.users uid = some u)
    (hone : st.users.countP (fun p => p.1 == uid) = 1) :
    createUser cfg st uid name kp ok = (.error (.duplicateUser uid), st) ∧
    (createUser cfg st uid name kp ok).2.users.countP (fun p => p.1 == uid) = 1 ∧
    lookupUser (createUser cfg st uid name kp ok).2.users uid = some u ∧
    (createUser cfg st uid name kp ok).2.used_ips = st.used_ips := by
  have he : createUser cfg st uid name kp ok = (.error (.duplicateUser uid), st) := by
    simp [createUser, h]
  refine ⟨he, ?_, ?_, ?_⟩ <;> rw [he]
  · exact hone
  · exact h

theorem create_user_duplicate_no_action_witness :
    createUser cfgT stA "a" (some "x") ("k2", "K2") true = (.error (.duplicateUser "a"), stA) ∧
    (createUser cfgT stA "a" (some "x") ("k2", "K2") true).2.users.countP
      (fun p => p.1 == "a") = 1 ∧
    lookupUser (createUser cfgT stA "a" (some "x") ("k2", "K2") true).2.users "a" =
      some (mkUser2 cfgT "a" none ("k1", "K1") "0.0.0.2") ∧
    (createUser cfgT stA "a" (some "x") ("k2", "K2") true).2.used_ips = stA.used_ips :=
  create_user_duplicate_no_action cfgT stA "a" (some "x") ("k2", "K2") true
    (mkUser2 cfgT "a" none ("k1", "K1") "0.0.0.2") (by decide) (by decide)

/-- C3: `delete_user` of an absent id raises `UserNotFound` with no state
change; for a stored id, if the peer-removal step fails it raises
`PeerCommandFailed` and the stored record and the used set are
unchanged. -/
theorem delete_user_error_paths :
    (∀ (st : MgrState) (uid : String) (ok : Bool), lookupUser st.users uid = none →
        deleteUser st uid ok = (.error (.userNotFound uid), st)) ∧
    (∀ (st : MgrState) (uid : String) (u : UserRec), lookupUser st.users uid = some u →
        deleteUser st uid false = (.error .peerCommandFailed, st) ∧
        lookupUser (deleteUser st uid false).2.users uid = some u ∧
        (deleteUser st uid false).2.used_ips = st.used_ips) := by
  constructor
  · intro st uid ok h
    simp [deleteUser, h]
  · intro st uid u h
    have he : deleteUser st uid false = (.error .peerCommandFailed, st) := by
      simp [deleteUser, h]
    exact ⟨he, by rw [he]; exact h, by rw [he]⟩

theorem delete_user_error_paths_witness :
    deleteUser initState "a" true = (.error (.userNotFound "a"), initState) ∧
    (deleteUser stA "a" false = (.error .peerCommandFailed, stA) ∧
     lookupUser (deleteUser stA "a" false).2.users "a" =
       some (mkUser2 cfgT "a" none ("k1", "K1") "0.0.0.2") ∧
     (deleteUser stA "a" false).2.used_ips = stA.used_ips) :=
  ⟨delete_user_error_paths.1 initState "a" true (by decide),
   delete_user_error_paths.2 stA "a" (mkUser2 cfgT "a" none ("k1", "K1") "0.0.0.2")
     (by decide)⟩

/-- C8: the read operations `get_user`, `list_users` and
`get_server_status` leave the store and the used-IP set (indeed the whole
state) unchanged; in particular `get_user` attaching a rendered client
config to its returned copy does not modify the stored record. -/
theorem read_ops_leave_state_unchanged (cfg : Cfg) (st : MgrState) (uid : String)
    (showOut : Option String) :
    (getUser cfg st uid).2 = st ∧ (listUsers st).2 = st ∧
    (getServerStatus cfg st showOut).2 = st ∧
    lookupUser (getUser cfg st uid).2.users uid = lookupUser st.users uid := by
  refine ⟨?_, rfl, ?_, ?_⟩
  · unfold getUser
    split <;> rfl
  · unfold getServerStatus
    split <;> rfl
  · unfold getUser
    split <;> rfl

/-- C9: a `create_user` call whose `name` argument is present but empty
behaves exactly as one with the name absent, and the created record's
`name` equals the id. -/
theorem create_user_empty_name_defaults_to_id
    (cfg : Cfg) (st : MgrState) (uid : String) (kp : String × String) (ip : String)
    (h : lookupUser st.users uid = none) (hip : getNextIp cfg st.used_ips = some ip) :
    (∀ ok, createUser cfg st uid (some "") kp ok = createUser cfg st uid none kp ok) ∧
    ∃ u, (createUser cfg st uid (some "") kp true).1 = .ok u ∧ u.name = uid := by
  constructor
  · intro ok
    cases ok
    · simp [createUser, h, hip]
    · rw [createUser_ok h hip, createUser_ok h hip]
      simp [mkUser2, mkUser1, nameOr]
  · refine ⟨mkUser2 cfg uid (some "") kp ip, ?_, ?_⟩
    · rw [createUser_ok h hip]
    · simp [mkUser2, mkUser1, nameOr]

theorem create_user_empty_name_defaults_to_id_witness :
    (∀ ok, createUser cfgT initState "a" (some "") ("k1", "K1") ok =
        createUser cfgT initState "a" none ("k1", "K1") ok) ∧
    ∃ u, (createUser cfgT initState "a" (some "") ("k1", "K1") true).1 = .ok u ∧
      u.name = "a" :=
  create_user_empty_name_defaults_to_id cfgT initState "a" ("k1", "K1") "0.0.0.2"
    (by decide) (by decide)

/-! ## Allocator characterization -/

theorem hostsList_sorted (cfg : Cfg) : (hostsList cfg).Pairwise (· < ·) :=
  List.Pairwise.map _ (fun a b h => by omega) (List.pairwise_lt_range _)

theorem findFree_eq_some_iff {start : Nat} {used : List String} :
    ∀ {l : List Nat}, l.Pairwise (· < ·) → ∀ {s : String},
      (findFree start used l = some s ↔
        ∃ n, n ∈ l ∧ start ≤ n ∧ ipStr n ∉ used ∧ s = ipStr n ∧
          ∀ m ∈ l, start ≤ m → ipStr m ∉ used → n ≤ m) := by
  intro l
  induction l with
  | nil => intro _ s; simp [findFree]
  | cons ip rest ih =>
    intro hp s
    have hlt : ∀ m ∈ rest, ip < m := fun m hm => List.rel_of_pairwise_cons hp hm
    have hrest := List.Pairwise.of_cons hp
    unfold findFree
    by_cases h1 : ip < start
    · rw [if_pos h1, ih hrest]
      constructor
      · rintro ⟨n, hn, hs, hnu, hse, hmin⟩
        refine ⟨n, List.mem_cons_of_mem _ hn, hs, hnu, hse, ?_⟩
        intro m hm hms hmu
        rcases List.mem_cons.mp hm with rfl | hm'
        · omega
        · exact hmin m hm' hms hmu
      · rintro ⟨n, hn, hs, hnu, hse, hmin⟩
        rcases List.mem_cons.mp hn with rfl | hn'
        · omega
        · exact ⟨n, hn', hs, hnu, hse, fun m hm hms hmu =>
            hmin m (List.mem_cons_of_mem _ hm) hms hmu⟩
    · rw [if_neg h1]
      by_cases h2 : ipStr ip ∈ used
      · rw [if_pos h2, ih hrest]
        constructor
        · rintro ⟨n, hn, hs, hnu, hse, hmin⟩
          refine ⟨n, List.mem_cons_of_mem _ hn, hs, hnu, hse, ?_⟩
          intro m hm hms hmu
          rcases List.mem_cons.mp hm with rfl | hm'
          · exact absurd h2 hmu
          · exact hmin m hm' hms hmu
        · rintro ⟨n, hn, hs, hnu, hse, hmin⟩
          rcases List.mem_cons.mp hn with rfl | hn'
          · exact absurd h2 hnu
          · exact ⟨n, hn', hs, hnu, hse, fun m hm hms hmu =>
              hmin m (List.mem_cons_of_mem _ hm) hms hmu⟩
      · rw [if_neg h2]
        constructor
        · intro hs
          injection hs with hs
          refine ⟨ip, List.mem_cons_self _ _, by omega, h2, hs.symm, ?_⟩
          intro m hm hms hmu
          rcases List.mem_cons.mp hm with rfl | hm'
          · exact le_refl _
          · exact le_of_lt (hlt m hm')
        · rintro ⟨n, hn, hs, hnu, hse, hmin⟩
          have hip : n ≤ ip := hmin ip (List.mem_cons_self _ _) (by omega) h2
          rcases List.mem_cons.mp hn with rfl | hn'
          · rw [hse]
          · exact absurd (hlt n hn') (by omega)

theorem findFree_eq_none_iff {start : Nat} {used : List String} :
    ∀ {l : List Nat},
      (findFree start used l = none ↔ ∀ n ∈ l, start ≤ n → ipStr n ∈ used) := by
  intro l
  induction l with
  | nil => simp [findFree]
  | cons ip rest ih =>
    unfold findFree
    by_cases h1 : ip < start
    · rw [if_pos h1, ih]
      constructor
      · intro h n hn hns
        rcases List.mem_cons.mp hn with rfl | hn'
        · omega
        · exact h n hn' hns
      · intro h n hn hns
        exact h n (List.mem_cons_of_mem _ hn) hns
    · rw [if_neg h1]
      by_cases h2 : ipStr ip ∈ used
      · rw [if_pos h2, ih]
        constructor
        · intro h n hn hns
          rcases List.mem_cons.mp hn with rfl | hn'
          · exact h2
          · exact h n hn' hns
        · intro h n hn hns
          exact h n (List.mem_cons_of_mem _ hn) hns
      · rw [if_neg h2]
        constructor
        · intro h
          exact absurd h (by simp)
        · intro h
          exact absurd (h ip (List.mem_cons_self _ _) (by omega)) h2

/-- C5: the allocator returns exactly the smallest host address of the
subnet that is at least the configured start and whose string form is
not in the used set; and when every host address from the start to the
end of the subnet is in use, `create_user` fails with `PoolExhausted`,
creating neither a record nor a peer (the state is unchanged). -/
theorem allocator_returns_least_free :
    (∀ (cfg : Cfg) (used : List String) (s : String),
      getNextIp cfg used = some s ↔
        ∃ n, n ∈ hostsList cfg ∧ cfg.VPN_NETWORK_START ≤ n ∧ ipStr n ∉ used ∧
          s = ipStr n ∧
          ∀ m ∈ hostsList cfg, cfg.VPN_NETWORK_START ≤ m → ipStr m ∉ used → n ≤ m) ∧
    (∀ (cfg : Cfg) (st : MgrState) (uid : String) (name : Option String)
        (kp : String × String) (ok : Bool),
      lookupUser st.users uid = none →
      (∀ n ∈ hostsList cfg, cfg.VPN_NETWORK_START ≤ n → ipStr n ∈ st.used_ips) →
      createUser cfg st uid name kp ok = (.error .poolExhausted, st)) := by
  constructor
  · intro cfg used s
    exact findFree_eq_some_iff (hostsList_sorted cfg)
  · intro cfg st uid name kp ok h hex
    have hnone : getNextIp cfg st.used_ips = none := findFree_eq_none_iff.mpr hex
    simp [createUser, h, hnone]

theorem allocator_returns_least_free_witness :
    ((getNextIp cfgT ["0.0.0.2"] = some "0.0.0.3" ↔
      ∃ n, n ∈ hostsList cfgT ∧ cfgT.VPN_NETWORK_START ≤ n ∧ ipStr n ∉ ["0.0.0.2"] ∧
        "0.0.0.3" = ipStr n ∧
        ∀ m ∈ hostsList cfgT, cfgT.VPN_NETWORK_START ≤ m → ipStr m ∉ ["0.0.0.2"] → n ≤ m) ∧
     createUser cfgT stExh "x" none ("k", "K") true = (.error .poolExhausted, stExh)) ∧
    getNextIp cfg24 [] = some "10.8.0.2" ∧
    getNextIp cfg24 ["10.8.0.2"] = some "10.8.0.3" ∧
    getNextIp cfg24 ["10.8.0.2", "10.8.0.3"] = some "10.8.0.4" ∧
    getNextIp cfg24 ["10.8.0.3"] = some "10.8.0.2" :=
  ⟨⟨allocator_returns_least_free.1 cfgT ["0.0.0.2"] "0.0.0.3",
    allocator_returns_least_free.2 cfgT stExh "x" none ("k", "K") true (by decide) (by decide)⟩,
   by decide, by decide, by decide, by decide⟩

/-- C10: `available_ips` is the total number of host addresses of the
whole subnet minus the number of used IPs — a count that includes host
addresses below the configured start, which can never be allocated.  In
the reachable state `st5` every allocatable address is taken, yet the
reported `available_ips` is 1 (the never-allocatable `0.0.0.1`) while
the next `create_user` fails with `PoolExhausted`. -/
theorem available_ips_counts_below_start :
    (∀ (cfg : Cfg) (st : MgrState) (out : String),
      (getServerStatus cfg st (some out)).1 =
        .running cfg.INTERFACE_NAME st.users.length
          ((hostsList cfg).length - (st.used_ips.length : Int)) out) ∧
    (getServerStatus cfgT st5 (some "up")).1 = .running "awg0" 5 1 "up" ∧
    createUser cfgT st5 "u6" none ("k6", "K6") true = (.error .poolExhausted, st5) := by
  refine ⟨fun cfg st out => rfl, by decide, by decide⟩

/-- C6 is refuted by the code: `create_user` saves the store and then
adds a `client_config` key to the record object it has just stored, so
the next mutation's `_save_users` persists that seventh key for the
earlier user.  After `create_user("a")` alone every persisted record has
exactly the six schema fields; after a following `create_user("b")` the
persisted record for `"a"` does not. -/
theorem saved_schema_gains_seventh_field :
    (∀ p ∈ stA.savedFile, p.2.client_config = none) ∧
    ¬ (∀ p ∈ (createUser cfgT stA "b" none ("k2", "K2") true).2.savedFile,
        p.2.client_config = none) := by
  constructor
  · decide
  · decide

/-! ## The quiescent-state invariant -/

theorem keys_nodup_unique {l : List (String × UserRec)}
    (hn : (l.map Prod.fst).Nodup) {p : String × UserRec} {uid : String} {u : UserRec}
    (hp : p ∈ l) (hu : (uid, u) ∈ l) (heq : p.1 = uid) : p = (uid, u) := by
  by_cases hpe : p = (uid, u)
  · exact hpe
  · have hpw : l.Pairwise (fun a b => a.1 ≠ b.1) := List.pairwise_map.mp hn
    have hsymm : Symmetric (fun (a b : String × UserRec) => a.1 ≠ b.1) :=
      fun a b h h2 => h h2.symm
    exact absurd heq (hpw.forall hsymm hp hu hpe)

theorem ips_nodup_unique {l : List (String × UserRec)} (hn : (ipsOf l).Nodup)
    {p q : String × UserRec} (hp : p ∈ l) (hq : q ∈ l) (hne : p ≠ q) :
    p.2.ip ≠ q.2.ip := by
  have hpw : l.Pairwise (fun a b => a.2.ip ≠ b.2.ip) := List.pairwise_map.mp hn
  have hsymm : Symmetric (fun (a b : String × UserRec) => a.2.ip ≠ b.2.ip) :=
    fun a b h h2 => h h2.symm
  exact hpw.forall hsymm hp hq hne

theorem deleteUser_ok {st : MgrState} {uid : String} {u : UserRec}
    (hl : lookupUser st.users uid = some u) :
    deleteUser st uid true =
      (.ok true, { users := st.users.filter (fun p => p.1 ≠ uid),
                   used_ips := st.used_ips.filter (fun s => s ≠ u.ip),
                   savedFile := st.users.filter (fun p => p.1 ≠ uid),
                   peers := erasePeer st.peers u.public_key }) := by
  simp [deleteUser, hl]

theorem inv_init : MgrInv initState := by
  refine ⟨List.nodup_nil, List.nodup_nil, List.nodup_nil, fun s => ?_⟩
  simp [initState, ipsOf]

theorem inv_create {cfg : Cfg} {st st' : MgrState} {uid : String} {name : Option String}
    {kp : String × String} {ok : Bool} {r : Except Err UserRec}
    (hinv : MgrInv st) (heq : createUser cfg st uid name kp ok = (r, st')) :
    MgrInv st' := by
  obtain ⟨hkeys, hips, hused, hcorr⟩ := hinv
  by_cases hdup : (lookupUser st.users uid).isSome
  · simp [createUser, hdup] at heq
    rw [← heq.2]
    exact ⟨hkeys, hips, hused, hcorr⟩
  · have hnone : lookupUser st.users uid = none := Option.not_isSome_iff_eq_none.mp hdup
    cases hip : getNextIp cfg st.used_ips with
    | none =>
      simp [createUser, hnone, hip] at heq
      rw [← heq.2]
      exact ⟨hkeys, hips, hused, hcorr⟩
    | some ip =>
      cases ok with
      | false =>
        simp [createUser, hnone, hip] at heq
        rw [← heq.2]
        exact ⟨hkeys, hips, hused, hcorr⟩
      | true =>
        rw [createUser_ok hnone hip] at heq
        injection heq with h1 h2
        subst h2
        have hipused : ip ∉ st.used_ips := getNextIp_not_mem hip
        have hipstore : ip ∉ ipsOf st.users := fun hmem => hipused ((hcorr ip).mpr hmem)
        have huid : ∀ p ∈ st.users, p.1 ≠ uid := lookupUser_eq_none_iff.mp hnone
        refine ⟨?_, ?_, ?_, fun s => ?_⟩
        · rw [List.map_append, List.nodup_append]
          refine ⟨hkeys, by simp, ?_⟩
          intro k hk
          simp only [List.map_cons, List.map_nil, List.mem_cons, List.not_mem_nil,
            or_false]
          rcases List.mem_map.mp hk with ⟨p, hp, hpk⟩
          intro hke
          exact huid p hp (by rw [hpk, hke])
        · show (ipsOf (st.users ++ [(uid, mkUser2 cfg uid name kp ip)])).Nodup
          unfold ipsOf
          rw [List.map_append, List.nodup_append]
          refine ⟨hips, by simp, ?_⟩
          intro s hs
          simp only [List.map_cons, List.map_nil, List.mem_cons, List.not_mem_nil,
            or_false]
          intro hse
          have : s ∈ ipsOf st.users := hs
          rw [hse] at this
          exact hipstore this
        · rw [List.nodup_append]
          exact ⟨hused, by simp, by
            intro s hs
            simp only [List.mem_cons, List.not_mem_nil, or_false]
            intro hse
            rw [hse] at hs
            exact hipused hs⟩
        · show s ∈ st.used_ips ++ [ip] ↔ s ∈ ipsOf (st.users ++ [(uid, mkUser2 cfg uid name kp ip)])
          unfold ipsOf
          rw [List.map_append]
          simp only [List.mem_append, List.map_cons, List.map_nil, List.mem_cons,
            List.not_mem_nil, or_false, List.mem_singleton]
          constructor
          · rintro (hs | hs)
            · exact Or.inl ((hcorr s).mp hs)
            · exact Or.inr hs
          · rintro (hs | hs)
            · exact Or.inl ((hcorr s).mpr hs)
            · exact Or.inr hs

theorem inv_delete {st st' : MgrState} {uid : String} {ok : Bool} {r : Except Err Bool}
    (hinv : MgrInv st) (heq : deleteUser st uid ok = (r, st')) : MgrInv st' := by
  obtain ⟨hkeys, hips, hused, hcorr⟩ := hinv
  cases hl : lookupUser st.users uid with
  | none =>
    simp [deleteUser, hl] at heq
    rw [← heq.2]
    exact ⟨hkeys, hips, hused, hcorr⟩
  | some u =>
    cases ok with
    | false =>
      simp [deleteUser, hl] at heq
      rw [← heq.2]
      exact ⟨hkeys, hips, hused, hcorr⟩
    | true =>
      rw [deleteUser_ok hl] at heq
      injection heq with h1 h2
      subst h2
      have humem : (uid, u) ∈ st.users := lookupUser_mem hl
      refine ⟨?_, ?_, ?_, fun s => ?_⟩
      · exact (List.Sublist.map Prod.fst (List.filter_sublist _)).nodup hkeys
      · exact (List.Sublist.map _ (List.filter_sublist _)).nodup hips
      · exact hused.filter _
      · show s ∈ st.used_ips.filter (fun x => x ≠ u.ip) ↔
          s ∈ ipsOf (st.users.filter (fun p => p.1 ≠ uid))
        rw [List.mem_filter]
        constructor
        · rintro ⟨hs, hsne⟩
          have hsip : s ∈ ipsOf st.users := (hcorr s).mp hs
          rcases List.mem_map.mp hsip with ⟨p, hp, hps⟩
          have hpne : p.1 ≠ uid := by
            intro hpk
            have hpu : p = (uid, u) := keys_nodup_unique hkeys hp humem hpk
            rw [hpu] at hps
            simp at hsne
            exact hsne (by rw [← hps])
          refine List.mem_map.mpr ⟨p, List.mem_filter.mpr ⟨hp, by simp [hpne]⟩, hps⟩
        · intro hs
          rcases List.mem_map.mp hs with ⟨p, hpf, hps⟩
          rw [List.mem_filter] at hpf
          obtain ⟨hp, hpne⟩ := hpf
          have hpne' : p.1 ≠ uid := by simpa using hpne
          refine ⟨(hcorr s).mpr (List.mem_map.mpr ⟨p, hp, hps⟩), ?_⟩
          have hne2 : s ≠ u.ip := by
            intro hse
            have hpnequ : p ≠ (uid, u) := fun hpe => hpne' (by rw [hpe])
            have hx := ips_nodup_unique hips hp humem hpnequ
            rw [hps] at hx
            exact hx (by rw [hse])
          simp [hne2]

theorem reach_inv {cfg : Cfg} {st : MgrState} (h : Reach cfg st) : MgrInv st := by
  induction h with
  | init => exact inv_init
  | create st st' uid name kp ok r _ heq ih => exact inv_create ih heq
  | delete st st' uid ok r _ heq ih => exact inv_delete ih heq

/-- C2: in every state reachable by any sequence of `create_user` and
`delete_user` operations, the multiset of stored IPs has no duplicates
and, as a set, equals the allocator's used-IP set. -/
theorem store_ips_nodup_and_match_pool (cfg : Cfg) (st : MgrState) (h : Reach cfg st) :
    (ipsOf st.users).Nodup ∧ ∀ s, s ∈ ipsOf st.users ↔ s ∈ st.used_ips := by
  have hi := reach_inv h
  exact ⟨hi.2.1, fun s => (hi.2.2.2 s).symm⟩

theorem store_ips_nodup_and_match_pool_witness :
    (ipsOf stB.users).Nodup ∧ ∀ s, s ∈ ipsOf stB.users ↔ s ∈ stB.used_ips :=
  store_ips_nodup_and_match_pool cfgT stB
    (Reach.create stA stB "b" none ("k2", "K2") true
      (createUser cfgT stA "b" none ("k2", "K2") true).1
      (Reach.create initState stA "a" none ("k1", "K1") true
        (createUser cfgT initState "a" none ("k1", "K1") true).1
        Reach.init rfl) rfl)

/-! ## Line structure of the rendered client configuration -/

theorem splitLines_no_nl {a : List Char} (h : '\n' ∉ a) : splitLines a = [a] := by
  induction a with
  | nil => rfl
  | cons c cs ih =>
    have hc : c ≠ '\n' := fun hce => h (hce ▸ List.mem_cons_self _ _)
    have hcs : '\n' ∉ cs := fun hm => h (List.mem_cons_of_mem _ hm)
    simp [splitLines, hc, ih hcs]

theorem splitLines_append_nl {a : List Char} (b : List Char) (h : '\n' ∉ a) :
    splitLines (a ++ '\n' :: b) = a :: splitLines b := by
  induction a with
  | nil => simp [splitLines]
  | cons c cs ih =>
    have hc : c ≠ '\n' := fun hce => h (hce ▸ List.mem_cons_self _ _)
    have hcs : '\n' ∉ cs := fun hm => h (List.mem_cons_of_mem _ hm)
    simp [splitLines, hc, ih hcs]

theorem splitLines_nlFlat {ls : List (List Char)} :
    ∀ {a : List Char}, '\n' ∉ a → (∀ l ∈ ls, '\n' ∉ l) →
      splitLines (a ++ nlFlat ls) = a :: ls := by
  induction ls with
  | nil =>
    intro a ha _
    simp [nlFlat, splitLines_no_nl ha]
  | cons l rest ih =>
    intro a ha hls
    have h1 : nlFlat (l :: rest) = '\n' :: (l ++ nlFlat rest) := by
      simp [nlFlat]
    rw [h1, splitLines_append_nl _ ha,
      ih (hls l (List.mem_cons_self _ _)) (fun x hx => hls x (List.mem_cons_of_mem _ hx))]

theorem not_mem_append {a : Char} {l1 l2 : List Char} (h1 : a ∉ l1) (h2 : a ∉ l2) :
    a ∉ l1 ++ l2 :=
  fun hm => (List.mem_append.mp hm).elim (fun hx => h1 hx) (fun hx => h2 hx)

theorem nlFlat_append (a b : List (List Char)) : nlFlat (a ++ b) = nlFlat a ++ nlFlat b := by
  simp [nlFlat]

theorem addOpts_data {ps : List (String × String)} :
    ∀ {c : String}, (∀ kv ∈ ps, ∃ t, kv.1.data = '\n' :: t) →
      (addOpts c ps).data =
        c.data ++ nlFlat (ps.filterMap
          (fun kv => if kv.2 = "" then none else some (kv.1.data.drop 1 ++ kv.2.data))) := by
  induction ps with
  | nil =>
    intro c _
    simp [addOpts, nlFlat]
  | cons kv rest ih =>
    intro c hps
    obtain ⟨t, ht⟩ := hps kv (List.mem_cons_self _ _)
    have hrest := fun x hx => hps x (List.mem_cons_of_mem _ hx)
    by_cases hv : kv.2 = ""
    · have h1 : addOpts c (kv :: rest) = addOpts c rest := by
        simp [addOpts, hv]
      rw [h1, ih hrest, List.filterMap_cons, if_pos hv]
    · have h1 : addOpts c (kv :: rest) = addOpts (c ++ kv.1 ++ kv.2) rest := by
        simp [addOpts, hv]
      rw [h1, ih hrest, List.filterMap_cons, if_neg hv]
      simp only [nlFlat, List.map_cons, List.flatten_cons, String.data_append]
      rw [ht]
      simp [List.append_assoc]

theorem tailStr_data (cfg : Cfg) : (tailStr cfg).data = nlFlat (peerLines cfg) := by
  simp only [tailStr, String.data_append, peerLines, nlFlat, List.map_cons, List.map_nil,
    List.flatten_cons, List.flatten_nil, List.append_nil]
  simp [List.append_assoc]

theorem baseStr_data (cfg : Cfg) (u : UserRec) :
    (baseStr cfg u).data = "[Interface]".data ++ nlFlat (hdrRest cfg u) := by
  simp only [baseStr, String.data_append, hdrRest, nlFlat, List.map_cons, List.map_nil,
    List.flatten_cons, List.flatten_nil, List.append_nil]
  simp [List.append_assoc]

theorem generateClientConfig_data (cfg : Cfg) (u : UserRec) :
    (generateClientConfig cfg u).data =
      "[Interface]".data ++ nlFlat (hdrRest cfg u ++ optLines cfg ++ peerLines cfg) := by
  have hpieces : ∀ kv ∈ optPieces cfg, ∃ t, kv.1.data = '\n' :: t := by
    intro kv hkv
    simp only [optPieces, List.mem_cons, List.not_mem_nil, or_false] at hkv
    rcases hkv with rfl | rfl | rfl | rfl | rfl | rfl | rfl | rfl | rfl <;> exact ⟨_, rfl⟩
  have hge : generateClientConfig cfg u =
      addOpts (baseStr cfg u) (optPieces cfg) ++ tailStr cfg := rfl
  rw [hge, String.data_append, addOpts_data hpieces, tailStr_data, baseStr_data,
    nlFlat_append, nlFlat_append]
  simp only [optLines]
  simp [List.append_assoc]

theorem clientConfig_lines (cfg : Cfg) (u : UserRec) (hc : CfgClean cfg) (hu : UserClean u) :
    linesOf (generateClientConfig cfg u) = clientConfigLines cfg u := by
  obtain ⟨hjc, hjmin, hjmax, hs1, hs2, hs3, hs4, hh1, hh2, hh3, hh4, hi1, hi2, hi3, hi4,
    hi5, hspk, hsip, hport⟩ := hc
  obtain ⟨hpk, hip⟩ := hu
  unfold linesOf clientConfigLines
  rw [generateClientConfig_data]
  refine splitLines_nlFlat (by decide) ?_
  intro l hl
  rw [List.mem_append, List.mem_append] at hl
  rcases hl with (hl | hl) | hl
  · simp only [hdrRest, List.mem_cons, List.not_mem_nil, or_false] at hl
    rcases hl with rfl | rfl | rfl | rfl | rfl | rfl | rfl | rfl | rfl | rfl | rfl | rfl |
      rfl | rfl
    · exact not_mem_append (by decide) hpk
    · exact not_mem_append (not_mem_append (by decide) hip) (by decide)
    · decide
    · decide
    · decide
    · decide
    · decide
    · exact not_mem_append (by decide) hjc
    · exact not_mem_append (by decide) hjmin
    · exact not_mem_append (by decide) hjmax
    · exact not_mem_append (by decide) hs1
    · exact not_mem_append (by decide) hs2
    · exact not_mem_append (by decide) hs3
    · exact not_mem_append (by decide) hs4
  · rcases List.mem_filterMap.mp hl with ⟨kv, hkv, hfkv⟩
    simp only [optPieces, List.mem_cons, List.not_mem_nil, or_false] at hkv
    rcases hkv with rfl | rfl | rfl | rfl | rfl | rfl | rfl | rfl | rfl <;>
      dsimp only at hfkv
    · split at hfkv
      · exact absurd hfkv (by simp)
      · injection hfkv with hfkv
        subst hfkv
        exact not_mem_append (by decide) hh1
    · split at hfkv
      · exact absurd hfkv (by simp)
      · injection hfkv with hfkv
        subst hfkv
        exact not_mem_append (by decide) hh2
    · split at hfkv
      · exact absurd hfkv (by simp)
      · injection hfkv with hfkv
        subst hfkv
        exact not_mem_append (by decide) hh3
    · split at hfkv
      · exact absurd hfkv (by simp)
      · injection hfkv with hfkv
        subst hfkv
        exact not_mem_append (by decide) hh4
    · split at hfkv
      · exact absurd hfkv (by simp)
      · injection hfkv with hfkv
        subst hfkv
        exact not_mem_append (by decide) hi1
    · split at hfkv
      · exact absurd hfkv (by simp)
      · injection hfkv with hfkv
        subst hfkv
        exact not_mem_append (by decide) hi2
    · split at hfkv
      · exact absurd hfkv (by simp)
      · injection hfkv with hfkv
        subst hfkv
        exact not_mem_append (by decide) hi3
    · split at hfkv
      · exact absurd hfkv (by simp)
      · injection hfkv with hfkv
        subst hfkv
        exact not_mem_append (by decide) hi4
    · split at hfkv
      · exact absurd hfkv (by simp)
      · injection hfkv with hfkv
        subst hfkv
        exact not_mem_append (by decide) hi5
  · simp only [peerLines, List.mem_cons, List.not_mem_nil, or_false] at hl
    rcases hl with rfl | rfl | rfl | rfl | rfl | rfl | rfl
    · decide
    · decide
    · exact not_mem_append (by decide) hspk
    · exact not_mem_append
        (not_mem_append (not_mem_append (by decide) hsip) (by decide)) hport
    · decide
    · decide
    · decide

theorem take2_res_ne {l : List Char} (a : List Char) (h : l.take 2 = a)
    (h1 : a ≠ ['H', '1']) (h2 : a ≠ ['I', '3']) :
    l.take 2 ≠ ['H', '1'] ∧ l.take 2 ≠ ['I', '3'] :=
  ⟨h ▸ h1, h ▸ h2⟩

theorem take1_res_ne {l : List Char} (a : List Char) (h : l.take 1 = a)
    (h1 : a ≠ ['S']) (h2 : a ≠ ['H']) :
    l.take 1 ≠ ['S'] ∧ l.take 1 ≠ ['H'] :=
  ⟨h ▸ h1, h ▸ h2⟩

theorem ne_of_take_ne {n : Nat} {l t : List Char} (h : l.take n ≠ t.take n) : l ≠ t :=
  fun he => h (he ▸ rfl)

theorem not_mem_of_all_ne {t : List Char} {l : List (List Char)}
    (h : ∀ x ∈ l, x ≠ t) : t ∉ l :=
  fun hm => h t hm rfl

/-- C7: under single-line field values, the rendered client config's line
list is exactly `clientConfigLines`: the fixed interface/obfuscation
header, then one `K = v` line for each of the nine optional fields whose
value is non-empty, in the fixed order H1..H4 then I1..I5, after the
`Jc/Jmin/Jmax` and `S1..S4` parameters and before the peer section,
which contains the `AllowedIPs = 0.0.0.0/0` and
`PersistentKeepalive = 25` lines.  With `H1` unset and `I3 = "abcd"`,
the output has no line starting `H1`, exactly one `I3 = abcd` line, and
that line sits after every `S`- and `H`-parameter line. -/
theorem client_config_optional_field_lines (cfg : Cfg) (u : UserRec)
    (hc : CfgClean cfg) (hu : UserClean u) :
    linesOf (generateClientConfig cfg u) = clientConfigLines cfg u ∧
    "AllowedIPs = 0.0.0.0/0".data ∈ linesOf (generateClientConfig cfg u) ∧
    "PersistentKeepalive = 25".data ∈ linesOf (generateClientConfig cfg u) ∧
    (cfg.H1 = "" → cfg.I3 = "abcd" →
      (∀ l ∈ linesOf (generateClientConfig cfg u), l.take 2 ≠ ['H', '1']) ∧
      (linesOf (generateClientConfig cfg u)).count "I3 = abcd".data = 1 ∧
      ∃ pre post, linesOf (generateClientConfig cfg u) = pre ++ "I3 = abcd".data :: post ∧
        ∀ l ∈ post, l.take 1 ≠ ['S'] ∧ l.take 1 ≠ ['H']) := by
  have hcl := clientConfig_lines cfg u hc hu
  refine ⟨hcl, ?_, ?_, ?_⟩
  · rw [hcl]
    exact List.mem_cons_of_mem _ (List.mem_append_right _ (by simp [peerLines]))
  · rw [hcl]
    exact List.mem_cons_of_mem _ (List.mem_append_right _ (by simp [peerLines]))
  · intro hH1 hI3
    have hoptsplit : optLines cfg
        = List.filterMap
            (fun kv => if kv.2 = "" then none else some (kv.1.data.drop 1 ++ kv.2.data))
            [("\nH2 = ", cfg.H2), ("\nH3 = ", cfg.H3), ("\nH4 = ", cfg.H4),
             ("\nI1 = ", cfg.I1), ("\nI2 = ", cfg.I2)]
          ++ "I3 = abcd".data
          :: List.filterMap
              (fun kv => if kv.2 = "" then none else some (kv.1.data.drop 1 ++ kv.2.data))
              [("\nI4 = ", cfg.I4), ("\nI5 = ", cfg.I5)] := by
      have e0 : optPieces cfg
          = [("\nH1 = ", cfg.H1)]
            ++ ([("\nH2 = ", cfg.H2), ("\nH3 = ", cfg.H3), ("\nH4 = ", cfg.H4),
                ("\nI1 = ", cfg.I1), ("\nI2 = ", cfg.I2)]
              ++ ([("\nI3 = ", cfg.I3)]
                ++ [("\nI4 = ", cfg.I4), ("\nI5 = ", cfg.I5)])) := rfl
      unfold optLines
      rw [e0, List.filterMap_append, List.filterMap_append, List.filterMap_append]
      rw [show List.filterMap
            (fun kv => if kv.2 = "" then none else some (kv.1.data.drop 1 ++ kv.2.data))
            [("\nH1 = ", cfg.H1)] = [] from by simp [hH1],
          show List.filterMap
            (fun kv => if kv.2 = "" then none else some (kv.1.data.drop 1 ++ kv.2.data))
            [("\nI3 = ", cfg.I3)] = ["I3 = abcd".data] from by simp [hI3]]
      simp
    have hform : linesOf (generateClientConfig cfg u)
        = ("[Interface]".data :: (hdrRest cfg u ++ List.filterMap
            (fun kv => if kv.2 = "" then none else some (kv.1.data.drop 1 ++ kv.2.data))
            [("\nH2 = ", cfg.H2), ("\nH3 = ", cfg.H3), ("\nH4 = ", cfg.H4),
             ("\nI1 = ", cfg.I1), ("\nI2 = ", cfg.I2)]))
          ++ "I3 = abcd".data
          :: (List.filterMap
              (fun kv => if kv.2 = "" then none else some (kv.1.data.drop 1 ++ kv.2.data))
              [("\nI4 = ", cfg.I4), ("\nI5 = ", cfg.I5)] ++ peerLines cfg) := by
      rw [hcl]
      unfold clientConfigLines
      rw [hoptsplit]
      simp [List.append_assoc]
    have hhdr : ∀ x ∈ hdrRest cfg u, x.take 2 ≠ ['H', '1'] ∧ x.take 2 ≠ ['I', '3'] := by
      intro x hx
      simp only [hdrRest, List.mem_cons, List.not_mem_nil, or_false] at hx
      rcases hx with rfl | rfl | rfl | rfl | rfl | rfl | rfl | rfl | rfl | rfl | rfl |
        rfl | rfl | rfl
      · exact take2_res_ne ['P', 'r'] rfl (by decide) (by decide)
      · exact take2_res_ne ['A', 'd'] rfl (by decide) (by decide)
      · decide
      · decide
      · decide
      · decide
      · decide
      · exact take2_res_ne ['J', 'c'] rfl (by decide) (by decide)
      · exact take2_res_ne ['J', 'm'] rfl (by decide) (by decide)
      · exact take2_res_ne ['J', 'm'] rfl (by decide) (by decide)
      · exact take2_res_ne ['S', '1'] rfl (by decide) (by decide)
      · exact take2_res_ne ['S', '2'] rfl (by decide) (by decide)
      · exact take2_res_ne ['S', '3'] rfl (by decide) (by decide)
      · exact take2_res_ne ['S', '4'] rfl (by decide) (by decide)
    have hmid : ∀ x ∈ List.filterMap
        (fun kv => if kv.2 = "" then none else some (kv.1.data.drop 1 ++ kv.2.data))
        [("\nH2 = ", cfg.H2), ("\nH3 = ", cfg.H3), ("\nH4 = ", cfg.H4),
         ("\nI1 = ", cfg.I1), ("\nI2 = ", cfg.I2)],
        x.take 2 ≠ ['H', '1'] ∧ x.take 2 ≠ ['I', '3'] := by
      intro x hx
      rcases List.mem_filterMap.mp hx with ⟨kv, hkv, hfkv⟩
      simp only [List.mem_cons, List.not_mem_nil, or_false] at hkv
      rcases hkv with rfl | rfl | rfl | rfl | rfl <;> dsimp only at hfkv
      · split at hfkv
        · exact absurd hfkv (by simp)
        · injection hfkv with hfkv
          subst hfkv
          exact take2_res_ne ['H', '2'] rfl (by decide) (by decide)
      · split at hfkv
        · exact absurd hfkv (by simp)
        · injection hfkv with hfkv
          subst hfkv
          exact take2_res_ne ['H', '3'] rfl (by decide) (by decide)
      · split at hfkv
        · exact absurd hfkv (by simp)
        · injection hfkv with hfkv
          subst hfkv
          exact take2_res_ne ['H', '4'] rfl (by decide) (by decide)
      · split at hfkv
        · exact absurd hfkv (by simp)
        · injection hfkv with hfkv
          subst hfkv
          exact take2_res_ne ['I', '1'] rfl (by decide) (by decide)
      · split at hfkv
        · exact absurd hfkv (by simp)
        · injection hfkv with hfkv
          subst hfkv
          exact take2_res_ne ['I', '2'] rfl (by decide) (by decide)
    have htail : ∀ x ∈ List.filterMap
        (fun kv => if kv.2 = "" then none else some (kv.1.data.drop 1 ++ kv.2.data))
        [("\nI4 = ", cfg.I4), ("\nI5 = ", cfg.I5)],
        (x.take 2 ≠ ['H', '1'] ∧ x.take 2 ≠ ['I', '3']) ∧
          x.take 1 ≠ ['S'] ∧ x.take 1 ≠ ['H'] := by
      intro x hx
      rcases List.mem_filterMap.mp hx with ⟨kv, hkv, hfkv⟩
      simp only [List.mem_cons, List.not_mem_nil, or_false] at hkv
      rcases hkv with rfl | rfl <;> dsimp only at hfkv
      · split at hfkv
        · exact absurd hfkv (by simp)
        · injection hfkv with hfkv
          subst hfkv
          exact ⟨take2_res_ne ['I', '4'] rfl (by decide) (by decide),
            take1_res_ne ['I'] rfl (by decide) (by decide)⟩
      · split at hfkv
        · exact absurd hfkv (by simp)
        · injection hfkv with hfkv
          subst hfkv
          exact ⟨take2_res_ne ['I', '5'] rfl (by decide) (by decide),
            take1_res_ne ['I'] rfl (by decide) (by decide)⟩
    have hpeer : ∀ x ∈ peerLines cfg,
        (x.take 2 ≠ ['H', '1'] ∧ x.take 2 ≠ ['I', '3']) ∧
          x.take 1 ≠ ['S'] ∧ x.take 1 ≠ ['H'] := by
      intro x hx
      simp only [peerLines, List.mem_cons, List.not_mem_nil, or_false] at hx
      rcases hx with rfl | rfl | rfl | rfl | rfl | rfl | rfl
      · decide
      · decide
      · exact ⟨take2_res_ne ['P', 'u'] rfl (by decide) (by decide),
          take1_res_ne ['P'] rfl (by decide) (by decide)⟩
      · exact ⟨take2_res_ne ['E', 'n'] rfl (by decide) (by decide),
          take1_res_ne ['E'] rfl (by decide) (by decide)⟩
      · decide
      · decide
      · decide
    refine ⟨?_, ?_, ?_⟩
    · intro l hl
      rw [hform] at hl
      simp only [List.mem_append, List.mem_cons] at hl
      rcases hl with (rfl | hl | hl) | rfl | hl | hl
      · decide
      · exact (hhdr l hl).1
      · exact (hmid l hl).1
      · decide
      · exact ((htail l hl).1).1
      · exact ((hpeer l hl).1).1
    · rw [hform, List.count_append, List.count_cons_self]
      have hpre0 : List.count "I3 = abcd".data
          ("[Interface]".data :: (hdrRest cfg u ++ List.filterMap
            (fun kv => if kv.2 = "" then none else some (kv.1.data.drop 1 ++ kv.2.data))
            [("\nH2 = ", cfg.H2), ("\nH3 = ", cfg.H3), ("\nH4 = ", cfg.H4),
             ("\nI1 = ", cfg.I1), ("\nI2 = ", cfg.I2)])) = 0 := by
        rw [List.count_eq_zero]
        apply not_mem_of_all_ne
        intro x hx
        rw [List.mem_cons, List.mem_append] at hx
        rcases hx with rfl | hx | hx
        · decide
        · exact ne_of_take_ne (n := 2) (hhdr x hx).2
        · exact ne_of_take_ne (n := 2) (hmid x hx).2
      have hpost0 : List.count "I3 = abcd".data
          (List.filterMap
            (fun kv => if kv.2 = "" then none else some (kv.1.data.drop 1 ++ kv.2.data))
            [("\nI4 = ", cfg.I4), ("\nI5 = ", cfg.I5)] ++ peerLines cfg) = 0 := by
        rw [List.count_eq_zero]
        apply not_mem_of_all_ne
        intro x hx
        rw [List.mem_append] at hx
        rcases hx with hx | hx
        · exact ne_of_take_ne (n := 2) ((htail x hx).1).2
        · exact ne_of_take_ne (n := 2) ((hpeer x hx).1).2
      rw [hpre0, hpost0]
    · refine ⟨_, _, hform, ?_⟩
      intro l hl
      rw [List.mem_append] at hl
      rcases hl with hl | hl
      · exact (htail l hl).2
      · exact (hpeer l hl).2

theorem client_config_optional_field_lines_witness :
    linesOf (generateClientConfig cfgI3 uT) = clientConfigLines cfgI3 uT ∧
    "AllowedIPs = 0.0.0.0/0".data ∈ linesOf (generateClientConfig cfgI3 uT) ∧
    "PersistentKeepalive = 25".data ∈ linesOf (generateClientConfig cfgI3 uT) ∧
    (cfgI3.H1 = "" → cfgI3.I3 = "abcd" →
      (∀ l ∈ linesOf (generateClientConfig cfgI3 uT), l.take 2 ≠ ['H', '1']) ∧
      (linesOf (generateClientConfig cfgI3 uT)).count "I3 = abcd".data = 1 ∧
      ∃ pre post,
        linesOf (generateClientConfig cfgI3 uT) = pre ++ "I3 = abcd".data :: post ∧
        ∀ l ∈ post, l.take 1 ≠ ['S'] ∧ l.take 1 ≠ ['H']) :=
  client_config_optional_field_lines cfgI3 uT (by decide) (by decide)
